import Mathlib

/-!
Verification of the lrytas crawler (src/lrytas/scraper.py) and dataset
builder (src/lrytas/dataset_builder.py).

The scraper is embedded as a pure state-transition program.  External
effects (the rendered search page, the HTTP article fetch) are supplied
by an environment `Env`; delays, pops, fetches and appends are recorded
in an event trace so that ordering claims can be stated.  Python `set`
is modelled by a list with insert-if-absent (`insertSeen`); Python
`list.pop()` by `popWord` (removes the last element); `raise` /
`IndexError` by an error component threaded through the run.  Machine
integers do not overflow here (Python ints are unbounded), so counts
are `Nat`.
-/

/-- A scraped article record, as built in `Scraper._get_article_data`:
`{"url": ..., "title": ..., "summary": ..., "text": ...}`. -/
structure Sample where
  url : String
  title : String
  summary : String
  text : String
deriving Repr, DecidableEq

/-- What the HTTP layer returns for an article URL: either an error
status (`response.raise_for_status()` raises) or a page from which
title / summary / text extraction yields the given strings (each
possibly empty when its selector finds nothing). -/
inductive Fetched where
  | httpError : Fetched
  | page (title summary text : String) : Fetched
deriving Repr, DecidableEq

/-- The external world seen by the scraper: for each query the list of
article URLs the search page yields (`_get_article_urls` after URL
normalisation), and for each article URL the fetch outcome. -/
structure Env where
  articleUrls : String → List String
  fetch : String → Fetched

/-- Observable events of a run, in order. -/
inductive Event where
  | shortSleep : Event
  | longSleep : Event
  | popQuery (q : String) : Event
  | searchFetch (q : String) : Event
  | articleFetch (url : String) : Event
  | append (url : String) : Event
deriving Repr, DecidableEq

/-- Errors that abort a run: an uncaught HTTP error from
`raise_for_status`, the `IndexError` of `[].pop()` (pool exhausted),
or running out of fuel in the model (the Python loop is unbounded). -/
inductive CrawlError where
  | httpError : CrawlError
  | exhausted : CrawlError
  | outOfFuel : CrawlError
deriving Repr, DecidableEq

/-- Mutable scraper state: `dataset_length`, `seen_urls`, the contents
of the jsonlines dataset file, and the shuffled word pool. -/
structure ScraperState where
  datasetLength : Nat
  seenUrls : List String
  dataset : List Sample
  words : List String
deriving Repr, DecidableEq

/-- Python `set.add`: membership-preserving insert. -/
def insertSeen (u : String) (s : List String) : List String :=
  if u ∈ s then s else u :: s

/-- Result of (part of) a run: the events emitted, the state reached
(the `dataset` component is what the jsonlines file holds, so it is
meaningful even when the run aborted), and the abort reason if any. -/
structure RunOut where
  events : List Event
  state : ScraperState
  err : Option CrawlError
deriving Repr, DecidableEq

/-- `Scraper._get_dataset_info`: with the file absent the state stays
at count 0 and empty seen set; otherwise each record adds its url to
`seen_urls` and bumps `dataset_length`. -/
def getDatasetInfo (file : Option (List Sample)) : Nat × List String :=
  match file with
  | none => (0, [])
  | some records =>
      records.foldl (fun acc s => (acc.1 + 1, insertSeen s.url acc.2)) (0, [])

/-- State at the end of `Scraper.__init__`: recovery has run and the
word pool is loaded. -/
def initState (file : Option (List Sample)) (words : List String) : ScraperState :=
  { datasetLength := (getDatasetInfo file).1
    seenUrls := (getDatasetInfo file).2
    dataset := file.getD []
    words := words }

/-- `Scraper._save_sample`: append the record to the file, add its url
to `seen_urls`, increment `dataset_length`. -/
def saveSample (st : ScraperState) (s : Sample) : ScraperState :=
  { st with
    dataset := st.dataset ++ [s]
    seenUrls := insertSeen s.url st.seenUrls
    datasetLength := st.datasetLength + 1 }

/-- `Scraper._get_article_data` after the HTTP exchange: an error status
raises; otherwise the sample is kept only when both `text` and
`summary` are nonempty, and the `title` field is whatever extraction
returned, empty or not. -/
def getArticleData (url : String) (f : Fetched) :
    Except CrawlError (Option Sample) :=
  match f with
  | Fetched.httpError => Except.error CrawlError.httpError
  | Fetched.page title summary text =>
      if text = "" ∨ summary = "" then Except.ok none
      else Except.ok (some ⟨url, title, summary, text⟩)

/-- The `for article_url in article_urls` loop of `Scraper._scrape`:
skip seen URLs before any network activity, otherwise short-sleep,
fetch (an HTTP error aborts the whole run), and save valid samples. -/
def scrapeUrlList (env : Env) (st : ScraperState) : List String → RunOut
  | [] => ⟨[], st, none⟩
  | url :: rest =>
      if url ∈ st.seenUrls then scrapeUrlList env st rest
      else
        match getArticleData url (env.fetch url) with
        | Except.error e =>
            ⟨[Event.shortSleep, Event.articleFetch url], st, some e⟩
        | Except.ok none =>
            let r := scrapeUrlList env st rest
            ⟨Event.shortSleep :: Event.articleFetch url :: r.events, r.state, r.err⟩
        | Except.ok (some sample) =>
            let r := scrapeUrlList env (saveSample st sample) rest
            ⟨Event.shortSleep :: Event.articleFetch url ::
              Event.append sample.url :: r.events, r.state, r.err⟩

/-- `Scraper._scrape`: load the search page (`driver.get`, and only then
`_short_sleep`), and if the URL list is empty report failure (`False`);
otherwise walk the list and report success (`True`). -/
def scrapeQuery (env : Env) (st : ScraperState) (q : String) : RunOut × Bool :=
  let urls := env.articleUrls q
  if urls.isEmpty then
    (⟨[Event.searchFetch q, Event.shortSleep], st, none⟩, false)
  else
    let r := scrapeUrlList env st urls
    (⟨Event.searchFetch q :: Event.shortSleep :: r.events, r.state, r.err⟩, true)

/-- Python `self.words.pop()`: removes and returns the last element;
on the empty list it raises `IndexError` (modelled as `none`). -/
def popWord (l : List String) : Option (String × List String) :=
  match l.getLast? with
  | none => none
  | some q => some (q, l.dropLast)

/-- One flattening of the two nested loops of `Scraper.scrape`.
`backoff = true` is the inner `while not self._scrape(query)` re-entry:
long-sleep, pop a fresh query, scrape.  `backoff = false` is the top of
the outer `while`: stop when `dataset_length ≥ max_articles`, long-sleep
and reset `track` when `dataset_length - track > 25`, then pop and
scrape.  (`track ≤ dataset_length` in every reachable state, so `Nat`
subtraction agrees with Python.)  Fuel bounds the number of loop
iterations in the model. -/
def scrapeGo (env : Env) (maxA : Nat) :
    Nat → ScraperState → Nat → Bool → RunOut
  | 0, st, _, _ => ⟨[], st, some CrawlError.outOfFuel⟩
  | fuel + 1, st, track, true =>
      (match popWord st.words with
      | none => ⟨[Event.longSleep], st, some CrawlError.exhausted⟩
      | some (q, ws) =>
          let p := scrapeQuery env { st with words := ws } q
          match p.1.err with
          | some e =>
              ⟨Event.longSleep :: Event.popQuery q :: p.1.events, p.1.state, some e⟩
          | none =>
              let rest := scrapeGo env maxA fuel p.1.state track (!p.2)
              ⟨Event.longSleep :: Event.popQuery q :: (p.1.events ++ rest.events),
                rest.state, rest.err⟩)
  | fuel + 1, st, track, false =>
      if st.datasetLength < maxA then
        if st.datasetLength - track > 25 then
          match popWord st.words with
          | none => ⟨[Event.longSleep], st, some CrawlError.exhausted⟩
          | some (q, ws) =>
              let p := scrapeQuery env { st with words := ws } q
              match p.1.err with
              | some e =>
                  ⟨Event.longSleep :: Event.popQuery q :: p.1.events, p.1.state, some e⟩
              | none =>
                  let rest := scrapeGo env maxA fuel p.1.state st.datasetLength (!p.2)
                  ⟨Event.longSleep :: Event.popQuery q :: (p.1.events ++ rest.events),
                    rest.state, rest.err⟩
        else
          match popWord st.words with
          | none => ⟨[], st, some CrawlError.exhausted⟩
          | some (q, ws) =>
              let p := scrapeQuery env { st with words := ws } q
              match p.1.err with
              | some e =>
                  ⟨Event.popQuery q :: p.1.events, p.1.state, some e⟩
              | none =>
                  let rest := scrapeGo env maxA fuel p.1.state track (!p.2)
                  ⟨Event.popQuery q :: (p.1.events ++ rest.events),
                    rest.state, rest.err⟩
      else ⟨[], st, none⟩

/-- `Scraper.scrape`: `track` starts at the recovered `dataset_length`
and the loop enters at its outer test. -/
def scrape (env : Env) (maxA fuel : Nat) (st : ScraperState) : RunOut :=
  scrapeGo env maxA fuel st st.datasetLength false

/-- Sleep bounds of `Scraper._short_sleep` in centiseconds:
`uniform(0.1, 0.15)` seconds in debug mode, `uniform(30, 60)` otherwise. -/
def shortSleepRangeCs (debug : Bool) : Nat × Nat :=
  if debug then (10, 15) else (3000, 6000)

/-- Sleep bounds of `Scraper._long_sleep` in centiseconds:
`uniform(0.1, 0.15)` seconds in debug mode, `uniform(300, 420)` otherwise. -/
def longSleepRangeCs (debug : Bool) : Nat × Nat :=
  if debug then (10, 15) else (30000, 42000)

/-- Python `str.strip()`: drop leading and trailing whitespace. -/
def pyStrip (s : String) : String :=
  String.mk
    (((s.data.dropWhile Char.isWhitespace).reverse.dropWhile
        Char.isWhitespace).reverse)

/-- `DatasetBuilder._ignore_duplicates` body: keep a sample when its
stripped title is nonempty and not yet seen, adding kept titles to the
seen set. -/
def ignoreDuplicatesGo (seenTitles : List String) : List Sample → List Sample
  | [] => []
  | s :: rest =>
      let title := pyStrip s.title
      if title ≠ "" ∧ title ∉ seenTitles then
        s :: ignoreDuplicatesGo (insertSeen title seenTitles) rest
      else
        ignoreDuplicatesGo seenTitles rest

/-- `DatasetBuilder._ignore_duplicates`: starts from an empty seen set. -/
def ignoreDuplicates (samples : List Sample) : List Sample :=
  ignoreDuplicatesGo [] samples

/-- Event classifiers used to state trace properties. -/
def isPopQuery : Event → Bool
  | Event.popQuery _ => true
  | _ => false

def isAppend : Event → Bool
  | Event.append _ => true
  | _ => false

def isLongSleep : Event → Bool
  | Event.longSleep => true
  | _ => false

def isShortSleep : Event → Bool
  | Event.shortSleep => true
  | _ => false

def isSearchFetch : Event → Bool
  | Event.searchFetch _ => true
  | _ => false

def isArticleFetch : Event → Bool
  | Event.articleFetch _ => true
  | _ => false

/-- Queries popped during a run, in order. -/
def poppedQueries (evs : List Event) : List String :=
  evs.filterMap (fun e =>
    match e with
    | Event.popQuery q => some q
    | _ => none)

/-! ## Basic lemmas about the seen-set model -/

theorem mem_insertSeen (u v : String) (s : List String) :
    u ∈ insertSeen v s ↔ u = v ∨ u ∈ s := by
  unfold insertSeen
  split
  · rename_i h
    constructor
    · exact Or.inr
    · rintro (rfl | hu)
      · exact h
      · exact hu
  · simp

theorem subset_insertSeen (v : String) (s : List String) :
    s ⊆ insertSeen v s := by
  intro u hu
  rw [mem_insertSeen]
  exact Or.inr hu

theorem getDatasetInfo_fold (records : List Sample) :
    ∀ acc : Nat × List String,
      (records.foldl (fun acc s => (acc.1 + 1, insertSeen s.url acc.2)) acc).1
        = acc.1 + records.length ∧
      ∀ u, u ∈ (records.foldl
          (fun acc s => (acc.1 + 1, insertSeen s.url acc.2)) acc).2
        ↔ u ∈ acc.2 ∨ u ∈ records.map Sample.url := by
  induction records with
  | nil => intro acc; simp
  | cons s rest ih =>
    intro acc
    have h := ih (acc.1 + 1, insertSeen s.url acc.2)
    refine ⟨?_, ?_⟩
    · rw [List.foldl_cons, h.1]
      simp [Nat.add_assoc, Nat.add_comm 1 rest.length]
    · intro u
      rw [List.foldl_cons, (h.2 u)]
      simp only [mem_insertSeen, List.map_cons, List.mem_cons]
      tauto

/-- Claim C1: recovery is idempotent.  With the dataset file absent the
scraper starts with count 0 and an empty seen set; with a file holding
`records`, construction sets `dataset_length` to the number of records
and `seen_urls` to exactly the set of their `url` fields. -/
theorem recovery_idempotent :
    (∀ words, initState none words =
      { datasetLength := 0, seenUrls := [], dataset := [], words := words }) ∧
    ∀ (records : List Sample) (words : List String),
      (initState (some records) words).datasetLength = records.length ∧
      ∀ u, u ∈ (initState (some records) words).seenUrls
        ↔ u ∈ records.map Sample.url := by
  refine ⟨fun words => rfl, fun records words => ?_⟩
  have h := getDatasetInfo_fold records (0, [])
  refine ⟨?_, fun u => ?_⟩
  · simpa [initState, getDatasetInfo] using h.1
  · have h2 := h.2 u
    simp only [List.not_mem_nil] at h2
    simpa [initState, getDatasetInfo] using h2

/-! ## Export-time title deduplication (C3) -/

/-- Spec-side restatement of the export dedup (§4.2 / §8 of the spec):
a sample is kept iff its whitespace-trimmed title is nonempty and its
trimmed title did not occur among the trimmed titles of earlier
samples; kept samples stay in storage order. -/
def dedupSpecGo (earlierTitles : List String) : List Sample → List Sample
  | [] => []
  | s :: rest =>
      if pyStrip s.title ≠ "" ∧ pyStrip s.title ∉ earlierTitles then
        s :: dedupSpecGo (pyStrip s.title :: earlierTitles) rest
      else
        dedupSpecGo (pyStrip s.title :: earlierTitles) rest

def dedupSpec (samples : List Sample) : List Sample :=
  dedupSpecGo [] samples

theorem ignoreDuplicatesGo_eq_dedupSpecGo (samples : List Sample) :
    ∀ seenK seenA : List String,
      (∀ t, t ≠ "" → (t ∈ seenK ↔ t ∈ seenA)) → "" ∉ seenK →
      ignoreDuplicatesGo seenK samples = dedupSpecGo seenA samples := by
  induction samples with
  | nil => intro _ _ _ _; rfl
  | cons s rest ih =>
    intro seenK seenA hiff hK
    by_cases ht : pyStrip s.title = ""
    · have hcK : ¬(pyStrip s.title ≠ "" ∧ pyStrip s.title ∉ seenK) :=
        fun hc => hc.1 ht
      have hcA : ¬(pyStrip s.title ≠ "" ∧ pyStrip s.title ∉ seenA) :=
        fun hc => hc.1 ht
      rw [ignoreDuplicatesGo, dedupSpecGo, if_neg hcK, if_neg hcA]
      apply ih
      · intro t htne
        rw [hiff t htne]
        simp only [List.mem_cons]
        constructor
        · exact Or.inr
        · rintro (rfl | h2)
          · exact absurd ht htne
          · exact h2
      · exact hK
    · by_cases hmem : pyStrip s.title ∈ seenK
      · have hmemA : pyStrip s.title ∈ seenA := (hiff _ ht).1 hmem
        have hcK : ¬(pyStrip s.title ≠ "" ∧ pyStrip s.title ∉ seenK) :=
          fun hc => hc.2 hmem
        have hcA : ¬(pyStrip s.title ≠ "" ∧ pyStrip s.title ∉ seenA) :=
          fun hc => hc.2 hmemA
        rw [ignoreDuplicatesGo, dedupSpecGo, if_neg hcK, if_neg hcA]
        apply ih
        · intro t htne
          rw [hiff t htne]
          simp only [List.mem_cons]
          constructor
          · exact Or.inr
          · rintro (rfl | h2)
            · exact hmemA
            · exact h2
        · exact hK
      · have hmemA : pyStrip s.title ∉ seenA := fun hc => hmem ((hiff _ ht).2 hc)
        have hcK : pyStrip s.title ≠ "" ∧ pyStrip s.title ∉ seenK := ⟨ht, hmem⟩
        have hcA : pyStrip s.title ≠ "" ∧ pyStrip s.title ∉ seenA := ⟨ht, hmemA⟩
        rw [ignoreDuplicatesGo, dedupSpecGo, if_pos hcK, if_pos hcA]
        have hins : insertSeen (pyStrip s.title) seenK
            = pyStrip s.title :: seenK := by
          unfold insertSeen; rw [if_neg hmem]
        rw [hins]
        congr 1
        apply ih
        · intro t htne
          simp only [List.mem_cons]
          rw [hiff t htne]
        · simp only [List.mem_cons, not_or]
          exact ⟨fun hc => ht hc.symm, hK⟩

/-- Claim C3: the exporter keeps exactly the first occurrence of each
nonempty trimmed title, dropping later repeats and all empty-titled
samples (`ignoreDuplicates` coincides with the spec-side `dedupSpec`),
and on the spec's four-sample example it keeps exactly the first and
the last sample. -/
theorem export_title_dedup :
    (∀ samples, ignoreDuplicates samples = dedupSpec samples) ∧
    ignoreDuplicates
        [⟨"a", "X", "s", "t"⟩, ⟨"b", "X", "s", "t"⟩,
         ⟨"c", "", "s", "t"⟩, ⟨"d", "Y", "s", "t"⟩]
      = [⟨"a", "X", "s", "t"⟩, ⟨"d", "Y", "s", "t"⟩] := by
  refine ⟨fun samples => ?_, by decide⟩
  apply ignoreDuplicatesGo_eq_dedupSpecGo
  · intro t _; rfl
  · simp

/-! ## The crawl-state invariant (C2) -/

/-- The spec §3 invariant: the store holds no URL twice, every stored
URL is in `seen_urls`, and `dataset_length` equals the number of stored
records. -/
def CrawlInv (st : ScraperState) : Prop :=
  (st.dataset.map Sample.url).Nodup ∧
  (∀ s ∈ st.dataset, s.url ∈ st.seenUrls) ∧
  st.datasetLength = st.dataset.length

theorem CrawlInv_saveSample (st : ScraperState) (s : Sample)
    (h : CrawlInv st) (hu : s.url ∉ st.seenUrls) : CrawlInv (saveSample st s) := by
  obtain ⟨h1, h2, h3⟩ := h
  have hnotin : s.url ∉ st.dataset.map Sample.url := by
    intro hc
    obtain ⟨t, ht, hteq⟩ := List.mem_map.1 hc
    exact hu (hteq ▸ h2 t ht)
  refine ⟨?_, ?_, ?_⟩
  · simp only [saveSample, List.map_append, List.map_cons, List.map_nil]
    rw [List.nodup_append]
    refine ⟨h1, List.nodup_singleton _, ?_⟩
    intro a ha hb
    simp only [List.mem_singleton] at hb
    subst hb
    exact hnotin ha
  · intro t ht
    simp only [saveSample, List.mem_append, List.mem_singleton] at ht
    rcases ht with ht | rfl
    · exact subset_insertSeen _ _ (h2 t ht)
    · exact (mem_insertSeen _ _ _).2 (Or.inl rfl)
  · simp [saveSample, h3]

/-! Shape lemmas unfolding one step of the URL loop. -/

theorem sul_nil (env : Env) (st : ScraperState) :
    scrapeUrlList env st [] = ⟨[], st, none⟩ := rfl

theorem sul_cons_seen (env : Env) (st : ScraperState) (url : String)
    (rest : List String) (h : url ∈ st.seenUrls) :
    scrapeUrlList env st (url :: rest) = scrapeUrlList env st rest := by
  rw [scrapeUrlList, if_pos h]

theorem sul_cons_err (env : Env) (st : ScraperState) (url : String)
    (rest : List String) (h : url ∉ st.seenUrls)
    (hf : env.fetch url = Fetched.httpError) :
    scrapeUrlList env st (url :: rest)
      = ⟨[Event.shortSleep, Event.articleFetch url], st,
          some CrawlError.httpError⟩ := by
  rw [scrapeUrlList, if_neg h, hf]
  rfl

theorem sul_cons_invalid (env : Env) (st : ScraperState) (url : String)
    (rest : List String) (t s x : String) (h : url ∉ st.seenUrls)
    (hf : env.fetch url = Fetched.page t s x) (hv : x = "" ∨ s = "") :
    scrapeUrlList env st (url :: rest)
      = ⟨Event.shortSleep :: Event.articleFetch url ::
            (scrapeUrlList env st rest).events,
          (scrapeUrlList env st rest).state,
          (scrapeUrlList env st rest).err⟩ := by
  rw [scrapeUrlList, if_neg h, hf]
  simp only [getArticleData, if_pos hv]

theorem sul_cons_valid (env : Env) (st : ScraperState) (url : String)
    (rest : List String) (t s x : String) (h : url ∉ st.seenUrls)
    (hf : env.fetch url = Fetched.page t s x) (hv : ¬(x = "" ∨ s = "")) :
    scrapeUrlList env st (url :: rest)
      = ⟨Event.shortSleep :: Event.articleFetch url :: Event.append url ::
            (scrapeUrlList env (saveSample st ⟨url, t, s, x⟩) rest).events,
          (scrapeUrlList env (saveSample st ⟨url, t, s, x⟩) rest).state,
          (scrapeUrlList env (saveSample st ⟨url, t, s, x⟩) rest).err⟩ := by
  rw [scrapeUrlList, if_neg h, hf]
  simp only [getArticleData, if_neg hv]

/-- Case analysis principle for one step of the URL loop. -/
theorem sul_cases (env : Env) (st : ScraperState) (url : String)
    {motive : Prop}
    (hseen : url ∈ st.seenUrls → motive)
    (herr : url ∉ st.seenUrls → env.fetch url = Fetched.httpError → motive)
    (hinv : ∀ t s x, url ∉ st.seenUrls → env.fetch url = Fetched.page t s x →
      (x = "" ∨ s = "") → motive)
    (hval : ∀ t s x, url ∉ st.seenUrls → env.fetch url = Fetched.page t s x →
      ¬(x = "" ∨ s = "") → motive) : motive := by
  by_cases h : url ∈ st.seenUrls
  · exact hseen h
  · cases hf : env.fetch url with
    | httpError => exact herr h hf
    | page t s x =>
      by_cases hv : x = "" ∨ s = ""
      · exact hinv t s x h hf hv
      · exact hval t s x h hf hv

theorem sul_words (env : Env) : ∀ (urls : List String) (st : ScraperState),
    (scrapeUrlList env st urls).state.words = st.words := by
  intro urls
  induction urls with
  | nil => intro st; rfl
  | cons url rest ih =>
    intro st
    refine sul_cases env st url ?_ ?_ ?_ ?_
    · intro h
      rw [sul_cons_seen env st url rest h]
      exact ih st
    · intro h hf
      rw [sul_cons_err env st url rest h hf]
    · intro t s x h hf hv
      rw [sul_cons_invalid env st url rest t s x h hf hv]
      exact ih st
    · intro t s x h hf hv
      rw [sul_cons_valid env st url rest t s x h hf hv]
      exact ih (saveSample st ⟨url, t, s, x⟩)

theorem sul_seen_mono (env : Env) : ∀ (urls : List String) (st : ScraperState),
    st.seenUrls ⊆ (scrapeUrlList env st urls).state.seenUrls := by
  intro urls
  induction urls with
  | nil => intro st; exact fun u hu => hu
  | cons url rest ih =>
    intro st
    refine sul_cases env st url ?_ ?_ ?_ ?_
    · intro h
      rw [sul_cons_seen env st url rest h]
      exact ih st
    · intro h hf
      rw [sul_cons_err env st url rest h hf]
      exact fun u hu => hu
    · intro t s x h hf hv
      rw [sul_cons_invalid env st url rest t s x h hf hv]
      exact ih st
    · intro t s x h hf hv
      rw [sul_cons_valid env st url rest t s x h hf hv]
      exact fun u hu =>
        ih (saveSample st ⟨url, t, s, x⟩) (subset_insertSeen _ _ hu)

theorem sul_CrawlInv (env : Env) : ∀ (urls : List String) (st : ScraperState),
    CrawlInv st → CrawlInv (scrapeUrlList env st urls).state := by
  intro urls
  induction urls with
  | nil => intro st h; exact h
  | cons url rest ih =>
    intro st h
    refine sul_cases env st url ?_ ?_ ?_ ?_
    · intro hs
      rw [sul_cons_seen env st url rest hs]
      exact ih st h
    · intro hs hf
      rw [sul_cons_err env st url rest hs hf]
      exact h
    · intro t s x hs hf hv
      rw [sul_cons_invalid env st url rest t s x hs hf hv]
      exact ih st h
    · intro t s x hs hf hv
      rw [sul_cons_valid env st url rest t s x hs hf hv]
      exact ih (saveSample st ⟨url, t, s, x⟩)
        (CrawlInv_saveSample st ⟨url, t, s, x⟩ h hs)

theorem sul_fetch_not_seen (env : Env) :
    ∀ (urls : List String) (st : ScraperState) (u : String),
    u ∈ st.seenUrls →
    Event.articleFetch u ∉ (scrapeUrlList env st urls).events := by
  intro urls
  induction urls with
  | nil => intro st u _ hc; exact absurd hc (List.not_mem_nil _)
  | cons url rest ih =>
    intro st u hu
    refine sul_cases env st url ?_ ?_ ?_ ?_
    · intro h
      rw [sul_cons_seen env st url rest h]
      exact ih st u hu
    · intro h hf
      rw [sul_cons_err env st url rest h hf]
      intro hc
      simp only [List.mem_cons, List.not_mem_nil, or_false] at hc
      rcases hc with hc | hc
      · exact Event.noConfusion hc
      · exact h (Event.articleFetch.inj hc ▸ hu)
    · intro t s x h hf hv
      rw [sul_cons_invalid env st url rest t s x h hf hv]
      intro hc
      simp only [List.mem_cons] at hc
      rcases hc with hc | hc | hc
      · exact Event.noConfusion hc
      · exact h (Event.articleFetch.inj hc ▸ hu)
      · exact ih st u hu hc
    · intro t s x h hf hv
      rw [sul_cons_valid env st url rest t s x h hf hv]
      intro hc
      simp only [List.mem_cons] at hc
      rcases hc with hc | hc | hc | hc
      · exact Event.noConfusion hc
      · exact h (Event.articleFetch.inj hc ▸ hu)
      · exact Event.noConfusion hc
      · exact ih (saveSample st ⟨url, t, s, x⟩) u
          (subset_insertSeen _ _ hu) hc

theorem sul_append_mem_seen (env : Env) :
    ∀ (urls : List String) (st : ScraperState) (u : String),
    Event.append u ∈ (scrapeUrlList env st urls).events →
    u ∈ (scrapeUrlList env st urls).state.seenUrls := by
  intro urls
  induction urls with
  | nil => intro st u hc; exact absurd hc (List.not_mem_nil _)
  | cons url rest ih =>
    intro st u
    refine sul_cases env st url ?_ ?_ ?_ ?_
    · intro h
      rw [sul_cons_seen env st url rest h]
      exact ih st u
    · intro h hf
      rw [sul_cons_err env st url rest h hf]
      intro hc
      simp only [List.mem_cons, List.not_mem_nil, or_false] at hc
      rcases hc with hc | hc
      · exact Event.noConfusion hc
      · exact Event.noConfusion hc
    · intro t s x h hf hv
      rw [sul_cons_invalid env st url rest t s x h hf hv]
      intro hc
      simp only [List.mem_cons] at hc
      rcases hc with hc | hc | hc
      · exact Event.noConfusion hc
      · exact Event.noConfusion hc
      · exact ih st u hc
    · intro t s x h hf hv
      rw [sul_cons_valid env st url rest t s x h hf hv]
      intro hc
      simp only [List.mem_cons] at hc
      rcases hc with hc | hc | hc | hc
      · exact Event.noConfusion hc
      · exact Event.noConfusion hc
      · have huu : u = url := Event.append.inj hc
        subst huu
        exact sul_seen_mono env rest (saveSample st ⟨u, t, s, x⟩)
          ((mem_insertSeen _ _ _).2 (Or.inl rfl))
      · exact ih (saveSample st ⟨url, t, s, x⟩) u hc

theorem sul_count_le (env : Env) : ∀ (urls : List String) (st : ScraperState),
    (scrapeUrlList env st urls).state.datasetLength
      ≤ st.datasetLength + urls.length := by
  intro urls
  induction urls with
  | nil => intro st; simp [sul_nil]
  | cons url rest ih =>
    intro st
    refine sul_cases env st url ?_ ?_ ?_ ?_
    · intro h
      rw [sul_cons_seen env st url rest h]
      have := ih st
      simp only [List.length_cons]
      omega
    · intro h hf
      rw [sul_cons_err env st url rest h hf]
      simp only [List.length_cons]
      omega
    · intro t s x h hf hv
      rw [sul_cons_invalid env st url rest t s x h hf hv]
      have := ih st
      simp only [List.length_cons]
      omega
    · intro t s x h hf hv
      rw [sul_cons_valid env st url rest t s x h hf hv]
      have h2 := ih (saveSample st ⟨url, t, s, x⟩)
      have h3 : (saveSample st ⟨url, t, s, x⟩).datasetLength
          = st.datasetLength + 1 := rfl
      rw [h3] at h2
      simp only [List.length_cons]
      omega

/-- Whether fetching `u` yields a sample that passes the crawl-time
validation (`text` and `summary` both nonempty, no HTTP error). -/
def validFetch (env : Env) (u : String) : Bool :=
  match env.fetch u with
  | Fetched.httpError => false
  | Fetched.page _ summary text => !(text == "" || summary == "")

theorem sul_valid_in_seen (env : Env) :
    ∀ (urls : List String) (st : ScraperState),
    (scrapeUrlList env st urls).err = none →
    ∀ u ∈ urls, validFetch env u = true →
    u ∈ (scrapeUrlList env st urls).state.seenUrls := by
  intro urls
  induction urls with
  | nil => intro st _ u hu; exact absurd hu (List.not_mem_nil _)
  | cons url rest ih =>
    intro st
    refine sul_cases env st url ?_ ?_ ?_ ?_
    · intro h
      rw [sul_cons_seen env st url rest h]
      intro herr u hu hv
      rcases List.mem_cons.1 hu with rfl | hu2
      · exact sul_seen_mono env rest st h
      · exact ih st herr u hu2 hv
    · intro h hf
      rw [sul_cons_err env st url rest h hf]
      intro herr
      exact absurd herr (by simp)
    · intro t s x h hf hv
      rw [sul_cons_invalid env st url rest t s x h hf hv]
      intro herr u hu huv
      rcases List.mem_cons.1 hu with rfl | hu2
      · exfalso
        rw [validFetch, hf] at huv
        simp only [Bool.not_eq_eq_eq_not, Bool.not_true, Bool.or_eq_false_iff,
          beq_eq_false_iff_ne, ne_eq] at huv
        rcases hv with hv | hv
        · exact huv.1 hv
        · exact huv.2 hv
      · exact ih st herr u hu2 huv
    · intro t s x h hf hv
      rw [sul_cons_valid env st url rest t s x h hf hv]
      intro herr u hu huv
      rcases List.mem_cons.1 hu with rfl | hu2
      · exact sul_seen_mono env rest (saveSample st ⟨u, t, s, x⟩)
          ((mem_insertSeen _ _ _).2 (Or.inl rfl))
      · exact ih (saveSample st ⟨url, t, s, x⟩) herr u hu2 huv

theorem sul_no_pop (env : Env) :
    ∀ (urls : List String) (st : ScraperState) (e : Event),
    e ∈ (scrapeUrlList env st urls).events → isPopQuery e = false := by
  intro urls
  induction urls with
  | nil => intro st e hc; exact absurd hc (List.not_mem_nil _)
  | cons url rest ih =>
    intro st e
    refine sul_cases env st url ?_ ?_ ?_ ?_
    · intro h
      rw [sul_cons_seen env st url rest h]
      exact ih st e
    · intro h hf
      rw [sul_cons_err env st url rest h hf]
      intro hc
      simp only [List.mem_cons, List.not_mem_nil, or_false] at hc
      rcases hc with rfl | rfl <;> rfl
    · intro t s x h hf hv
      rw [sul_cons_invalid env st url rest t s x h hf hv]
      intro hc
      simp only [List.mem_cons] at hc
      rcases hc with rfl | rfl | hc
      · rfl
      · rfl
      · exact ih st e hc
    · intro t s x h hf hv
      rw [sul_cons_valid env st url rest t s x h hf hv]
      intro hc
      simp only [List.mem_cons] at hc
      rcases hc with rfl | rfl | rfl | hc
      · rfl
      · rfl
      · rfl
      · exact ih (saveSample st ⟨url, t, s, x⟩) e hc

theorem poppedQueries_nil : poppedQueries [] = [] := rfl

theorem poppedQueries_cons_pop (q : String) (evs : List Event) :
    poppedQueries (Event.popQuery q :: evs) = q :: poppedQueries evs := rfl

theorem poppedQueries_cons_other (e : Event) (evs : List Event)
    (h : isPopQuery e = false) :
    poppedQueries (e :: evs) = poppedQueries evs := by
  cases e <;> first
    | rfl
    | exact absurd h (by simp [isPopQuery])

theorem poppedQueries_append (l1 l2 : List Event) :
    poppedQueries (l1 ++ l2) = poppedQueries l1 ++ poppedQueries l2 :=
  List.filterMap_append l1 l2 _

theorem poppedQueries_of_no_pop : ∀ evs : List Event,
    (∀ e ∈ evs, isPopQuery e = false) → poppedQueries evs = [] := by
  intro evs
  induction evs with
  | nil => intro _; rfl
  | cons e rest ih =>
    intro h
    rw [poppedQueries_cons_other e rest (h e (List.mem_cons_self e rest))]
    exact ih (fun x hx => h x (List.mem_cons_of_mem e hx))

/-! Shape and property lemmas for one query scrape. -/

theorem sq_empty (env : Env) (st : ScraperState) (q : String)
    (h : (env.articleUrls q).isEmpty = true) :
    scrapeQuery env st q
      = (⟨[Event.searchFetch q, Event.shortSleep], st, none⟩, false) := by
  rw [scrapeQuery]
  simp only [h, if_true]

theorem sq_nonempty (env : Env) (st : ScraperState) (q : String)
    (h : ¬(env.articleUrls q).isEmpty = true) :
    scrapeQuery env st q
      = (⟨Event.searchFetch q :: Event.shortSleep ::
            (scrapeUrlList env st (env.articleUrls q)).events,
          (scrapeUrlList env st (env.articleUrls q)).state,
          (scrapeUrlList env st (env.articleUrls q)).err⟩, true) := by
  rw [scrapeQuery]
  simp [h]

/-- Case analysis principle for one query scrape. -/
theorem sq_cases (env : Env) (_st : ScraperState) (q : String)
    {motive : Prop}
    (hemp : (env.articleUrls q).isEmpty = true → motive)
    (hne : ¬(env.articleUrls q).isEmpty = true → motive) : motive := by
  by_cases h : (env.articleUrls q).isEmpty = true
  · exact hemp h
  · exact hne h

theorem sq_words (env : Env) (st : ScraperState) (q : String) :
    (scrapeQuery env st q).1.state.words = st.words := by
  refine sq_cases env st q ?_ ?_
  · intro h; rw [sq_empty env st q h]
  · intro h
    rw [sq_nonempty env st q h]
    exact sul_words env (env.articleUrls q) st

theorem sq_seen_mono (env : Env) (st : ScraperState) (q : String) :
    st.seenUrls ⊆ (scrapeQuery env st q).1.state.seenUrls := by
  refine sq_cases env st q ?_ ?_
  · intro h; rw [sq_empty env st q h]; exact fun u hu => hu
  · intro h
    rw [sq_nonempty env st q h]
    exact sul_seen_mono env (env.articleUrls q) st

theorem sq_CrawlInv (env : Env) (st : ScraperState) (q : String)
    (hi : CrawlInv st) : CrawlInv (scrapeQuery env st q).1.state := by
  refine sq_cases env st q ?_ ?_
  · intro h; rw [sq_empty env st q h]; exact hi
  · intro h
    rw [sq_nonempty env st q h]
    exact sul_CrawlInv env (env.articleUrls q) st hi

theorem sq_fetch_not_seen (env : Env) (st : ScraperState) (q u : String)
    (hu : u ∈ st.seenUrls) :
    Event.articleFetch u ∉ (scrapeQuery env st q).1.events := by
  refine sq_cases env st q ?_ ?_
  · intro h
    rw [sq_empty env st q h]
    intro hc
    simp only [List.mem_cons, List.not_mem_nil, or_false] at hc
    rcases hc with hc | hc <;> exact Event.noConfusion hc
  · intro h
    rw [sq_nonempty env st q h]
    intro hc
    simp only [List.mem_cons] at hc
    rcases hc with hc | hc | hc
    · exact Event.noConfusion hc
    · exact Event.noConfusion hc
    · exact sul_fetch_not_seen env (env.articleUrls q) st u hu hc

theorem sq_append_mem_seen (env : Env) (st : ScraperState) (q u : String)
    (hc : Event.append u ∈ (scrapeQuery env st q).1.events) :
    u ∈ (scrapeQuery env st q).1.state.seenUrls := by
  refine sq_cases env st q ?_ ?_
  · intro h
    rw [sq_empty env st q h] at hc ⊢
    simp only [List.mem_cons, List.not_mem_nil, or_false] at hc
    rcases hc with hc | hc <;> exact Event.noConfusion hc
  · intro h
    rw [sq_nonempty env st q h] at hc ⊢
    simp only [List.mem_cons] at hc
    rcases hc with hc | hc | hc
    · exact Event.noConfusion hc
    · exact Event.noConfusion hc
    · exact sul_append_mem_seen env (env.articleUrls q) st u hc

theorem sq_count_le (env : Env) (st : ScraperState) (q : String) :
    (scrapeQuery env st q).1.state.datasetLength
      ≤ st.datasetLength + (env.articleUrls q).length := by
  refine sq_cases env st q ?_ ?_
  · intro h
    rw [sq_empty env st q h]
    show st.datasetLength ≤ st.datasetLength + (env.articleUrls q).length
    omega
  · intro h
    rw [sq_nonempty env st q h]
    exact sul_count_le env (env.articleUrls q) st

theorem sq_no_pop (env : Env) (st : ScraperState) (q : String) :
    ∀ e ∈ (scrapeQuery env st q).1.events, isPopQuery e = false := by
  refine sq_cases env st q ?_ ?_
  · intro h
    rw [sq_empty env st q h]
    intro e he
    simp only [List.mem_cons, List.not_mem_nil, or_false] at he
    rcases he with rfl | rfl <;> rfl
  · intro h
    rw [sq_nonempty env st q h]
    intro e he
    simp only [List.mem_cons] at he
    rcases he with rfl | rfl | he
    · rfl
    · rfl
    · exact sul_no_pop env (env.articleUrls q) st e he

/-! Shape lemmas for one iteration of the crawl loop. -/

theorem go_zero (env : Env) (maxA : Nat) (st : ScraperState)
    (track : Nat) (b : Bool) :
    scrapeGo env maxA 0 st track b = ⟨[], st, some CrawlError.outOfFuel⟩ := rfl

theorem go_done (env : Env) (maxA fuel : Nat) (st : ScraperState)
    (track : Nat) (h : ¬st.datasetLength < maxA) :
    scrapeGo env maxA (fuel + 1) st track false = ⟨[], st, none⟩ := by
  rw [scrapeGo, if_neg h]

theorem go_true_exh (env : Env) (maxA fuel : Nat) (st : ScraperState)
    (track : Nat) (h : popWord st.words = none) :
    scrapeGo env maxA (fuel + 1) st track true
      = ⟨[Event.longSleep], st, some CrawlError.exhausted⟩ := by
  rw [scrapeGo, h]

theorem go_true_err (env : Env) (maxA fuel : Nat) (st : ScraperState)
    (track : Nat) (q : String) (ws : List String) (e : CrawlError)
    (h : popWord st.words = some (q, ws))
    (he : (scrapeQuery env { st with words := ws } q).1.err = some e) :
    scrapeGo env maxA (fuel + 1) st track true
      = ⟨Event.longSleep :: Event.popQuery q ::
            (scrapeQuery env { st with words := ws } q).1.events,
          (scrapeQuery env { st with words := ws } q).1.state, some e⟩ := by
  rw [scrapeGo, h]
  simp only [he]

theorem go_true_ok (env : Env) (maxA fuel : Nat) (st : ScraperState)
    (track : Nat) (q : String) (ws : List String)
    (h : popWord st.words = some (q, ws))
    (he : (scrapeQuery env { st with words := ws } q).1.err = none) :
    scrapeGo env maxA (fuel + 1) st track true
      = ⟨Event.longSleep :: Event.popQuery q ::
            ((scrapeQuery env { st with words := ws } q).1.events ++
              (scrapeGo env maxA fuel
                (scrapeQuery env { st with words := ws } q).1.state track
                (!(scrapeQuery env { st with words := ws } q).2)).events),
          (scrapeGo env maxA fuel
            (scrapeQuery env { st with words := ws } q).1.state track
            (!(scrapeQuery env { st with words := ws } q).2)).state,
          (scrapeGo env maxA fuel
            (scrapeQuery env { st with words := ws } q).1.state track
            (!(scrapeQuery env { st with words := ws } q).2)).err⟩ := by
  rw [scrapeGo, h]
  simp only [he]

theorem go_trk_exh (env : Env) (maxA fuel : Nat) (st : ScraperState)
    (track : Nat) (hlt : st.datasetLength < maxA)
    (ht : st.datasetLength - track > 25) (h : popWord st.words = none) :
    scrapeGo env maxA (fuel + 1) st track false
      = ⟨[Event.longSleep], st, some CrawlError.exhausted⟩ := by
  rw [scrapeGo, if_pos hlt, if_pos ht, h]

theorem go_trk_err (env : Env) (maxA fuel : Nat) (st : ScraperState)
    (track : Nat) (q : String) (ws : List String) (e : CrawlError)
    (hlt : st.datasetLength < maxA) (ht : st.datasetLength - track > 25)
    (h : popWord st.words = some (q, ws))
    (he : (scrapeQuery env { st with words := ws } q).1.err = some e) :
    scrapeGo env maxA (fuel + 1) st track false
      = ⟨Event.longSleep :: Event.popQuery q ::
            (scrapeQuery env { st with words := ws } q).1.events,
          (scrapeQuery env { st with words := ws } q).1.state, some e⟩ := by
  rw [scrapeGo, if_pos hlt, if_pos ht, h]
  simp only [he]

theorem go_trk_ok (env : Env) (maxA fuel : Nat) (st : ScraperState)
    (track : Nat) (q : String) (ws : List String)
    (hlt : st.datasetLength < maxA) (ht : st.datasetLength - track > 25)
    (h : popWord st.words = some (q, ws))
    (he : (scrapeQuery env { st with words := ws } q).1.err = none) :
    scrapeGo env maxA (fuel + 1) st track false
      = ⟨Event.longSleep :: Event.popQuery q ::
            ((scrapeQuery env { st with words := ws } q).1.events ++
              (scrapeGo env maxA fuel
                (scrapeQuery env { st with words := ws } q).1.state
                st.datasetLength
                (!(scrapeQuery env { st with words := ws } q).2)).events),
          (scrapeGo env maxA fuel
            (scrapeQuery env { st with words := ws } q).1.state
            st.datasetLength
            (!(scrapeQuery env { st with words := ws } q).2)).state,
          (scrapeGo env maxA fuel
            (scrapeQuery env { st with words := ws } q).1.state
            st.datasetLength
            (!(scrapeQuery env { st with words := ws } q).2)).err⟩ := by
  rw [scrapeGo, if_pos hlt, if_pos ht, h]
  simp only [he]

theorem go_plain_exh (env : Env) (maxA fuel : Nat) (st : ScraperState)
    (track : Nat) (hlt : st.datasetLength < maxA)
    (ht : ¬st.datasetLength - track > 25) (h : popWord st.words = none) :
    scrapeGo env maxA (fuel + 1) st track false
      = ⟨[], st, some CrawlError.exhausted⟩ := by
  rw [scrapeGo, if_pos hlt, if_neg ht, h]

theorem go_plain_err (env : Env) (maxA fuel : Nat) (st : ScraperState)
    (track : Nat) (q : String) (ws : List String) (e : CrawlError)
    (hlt : st.datasetLength < maxA) (ht : ¬st.datasetLength - track > 25)
    (h : popWord st.words = some (q, ws))
    (he : (scrapeQuery env { st with words := ws } q).1.err = some e) :
    scrapeGo env maxA (fuel + 1) st track false
      = ⟨Event.popQuery q ::
            (scrapeQuery env { st with words := ws } q).1.events,
          (scrapeQuery env { st with words := ws } q).1.state, some e⟩ := by
  rw [scrapeGo, if_pos hlt, if_neg ht, h]
  simp only [he]

theorem go_plain_ok (env : Env) (maxA fuel : Nat) (st : ScraperState)
    (track : Nat) (q : String) (ws : List String)
    (hlt : st.datasetLength < maxA) (ht : ¬st.datasetLength - track > 25)
    (h : popWord st.words = some (q, ws))
    (he : (scrapeQuery env { st with words := ws } q).1.err = none) :
    scrapeGo env maxA (fuel + 1) st track false
      = ⟨Event.popQuery q ::
            ((scrapeQuery env { st with words := ws } q).1.events ++
              (scrapeGo env maxA fuel
                (scrapeQuery env { st with words := ws } q).1.state track
                (!(scrapeQuery env { st with words := ws } q).2)).events),
          (scrapeGo env maxA fuel
            (scrapeQuery env { st with words := ws } q).1.state track
            (!(scrapeQuery env { st with words := ws } q).2)).state,
          (scrapeGo env maxA fuel
            (scrapeQuery env { st with words := ws } q).1.state track
            (!(scrapeQuery env { st with words := ws } q).2)).err⟩ := by
  rw [scrapeGo, if_pos hlt, if_neg ht, h]
  simp only [he]

theorem popWord_some (l : List String) (q : String) (ws : List String)
    (h : popWord l = some (q, ws)) : l = ws ++ [q] := by
  unfold popWord at h
  cases hg : l.getLast? with
  | none => rw [hg] at h; exact absurd h (by simp)
  | some x =>
    rw [hg] at h
    have h2 := Option.some.inj h
    have hq : x = q := congrArg Prod.fst h2
    have hws : l.dropLast = ws := congrArg Prod.snd h2
    subst hq
    rw [← hws]
    exact (List.dropLast_append_getLast? x (Option.mem_def.2 hg)).symm

/-- Bundle of facts relating the state a (partial) run started from to
its outcome: the seen set only grows, the §3 invariant is preserved,
the word pool splits into the remaining pool plus the popped queries,
no already-seen URL is ever fetched, and every appended URL ends up in
the seen set. -/
def GoFacts (st0 : ScraperState) (r : RunOut) : Prop :=
  st0.seenUrls ⊆ r.state.seenUrls ∧
  (CrawlInv st0 → CrawlInv r.state) ∧
  st0.words = r.state.words ++ (poppedQueries r.events).reverse ∧
  (∀ u ∈ st0.seenUrls, Event.articleFetch u ∉ r.events) ∧
  (∀ u, Event.append u ∈ r.events → u ∈ r.state.seenUrls)

theorem gf_id (st : ScraperState) (e : Option CrawlError) :
    GoFacts st ⟨[], st, e⟩ := by
  refine ⟨fun u hu => hu, fun h => h, by simp [poppedQueries], ?_, ?_⟩
  · intro u _ hc; exact absurd hc (List.not_mem_nil _)
  · intro u hc; exact absurd hc (List.not_mem_nil _)

theorem gf_longSleep_cons (st : ScraperState) (evs : List Event)
    (s : ScraperState) (e e2 : Option CrawlError)
    (h : GoFacts st ⟨evs, s, e⟩) :
    GoFacts st ⟨Event.longSleep :: evs, s, e2⟩ := by
  obtain ⟨h1, h2, h3, h4, h5⟩ := h
  refine ⟨h1, h2, ?_, ?_, ?_⟩
  · rw [show poppedQueries (Event.longSleep :: evs) = poppedQueries evs
      from poppedQueries_cons_other Event.longSleep evs rfl]
    exact h3
  · intro u hu hc
    rcases List.mem_cons.1 hc with hc | hc
    · exact Event.noConfusion hc
    · exact h4 u hu hc
  · intro u hc
    rcases List.mem_cons.1 hc with hc | hc
    · exact Event.noConfusion hc
    · exact h5 u hc

theorem gf_query (env : Env) (st : ScraperState) (q : String)
    (ws : List String) (hp : popWord st.words = some (q, ws))
    (e : Option CrawlError) :
    GoFacts st ⟨Event.popQuery q ::
        (scrapeQuery env { st with words := ws } q).1.events,
      (scrapeQuery env { st with words := ws } q).1.state, e⟩ := by
  have hwords : st.words = ws ++ [q] := popWord_some st.words q ws hp
  refine ⟨?_, ?_, ?_, ?_, ?_⟩
  · exact sq_seen_mono env { st with words := ws } q
  · exact fun hi => sq_CrawlInv env { st with words := ws } q hi
  · rw [poppedQueries_cons_pop,
      poppedQueries_of_no_pop _ (sq_no_pop env { st with words := ws } q),
      sq_words env { st with words := ws } q]
    exact hwords
  · intro u hu hc
    rcases List.mem_cons.1 hc with hc | hc
    · exact Event.noConfusion hc
    · exact sq_fetch_not_seen env { st with words := ws } q u hu hc
  · intro u hc
    rcases List.mem_cons.1 hc with hc | hc
    · exact Event.noConfusion hc
    · exact sq_append_mem_seen env { st with words := ws } q u hc

theorem gf_query_seq (env : Env) (st : ScraperState) (q : String)
    (ws : List String) (hp : popWord st.words = some (q, ws))
    (r : RunOut) (e : Option CrawlError)
    (hr : GoFacts (scrapeQuery env { st with words := ws } q).1.state r) :
    GoFacts st ⟨Event.popQuery q ::
        ((scrapeQuery env { st with words := ws } q).1.events ++ r.events),
      r.state, e⟩ := by
  have hwords : st.words = ws ++ [q] := popWord_some st.words q ws hp
  obtain ⟨r1, r2, r3, r4, r5⟩ := hr
  refine ⟨?_, ?_, ?_, ?_, ?_⟩
  · exact fun u hu => r1 (sq_seen_mono env { st with words := ws } q hu)
  · exact fun hi => r2 (sq_CrawlInv env { st with words := ws } q hi)
  · rw [poppedQueries_cons_pop, poppedQueries_append,
      poppedQueries_of_no_pop _ (sq_no_pop env { st with words := ws } q),
      List.nil_append, hwords]
    have h2 : ws = r.state.words ++ (poppedQueries r.events).reverse :=
      (sq_words env { st with words := ws } q).symm.trans r3
    rw [h2]
    simp [List.append_assoc]
  · intro u hu hc
    rcases List.mem_cons.1 hc with hc | hc
    · exact Event.noConfusion hc
    · rcases List.mem_append.1 hc with hc | hc
      · exact sq_fetch_not_seen env { st with words := ws } q u hu hc
      · exact r4 u (sq_seen_mono env { st with words := ws } q hu) hc
  · intro u hc
    rcases List.mem_cons.1 hc with hc | hc
    · exact Event.noConfusion hc
    · rcases List.mem_append.1 hc with hc | hc
      · exact r1 (sq_append_mem_seen env { st with words := ws } q u hc)
      · exact r5 u hc

theorem go_facts (env : Env) (maxA : Nat) :
    ∀ (fuel : Nat) (st : ScraperState) (track : Nat) (b : Bool),
    GoFacts st (scrapeGo env maxA fuel st track b) := by
  intro fuel
  induction fuel with
  | zero =>
    intro st track b
    rw [go_zero]
    exact gf_id st _
  | succ n ih =>
    intro st track b
    cases b with
    | true =>
      cases hp : popWord st.words with
      | none =>
        rw [go_true_exh env maxA n st track hp]
        exact gf_longSleep_cons st [] st none (some CrawlError.exhausted) (gf_id st none)
      | some pair =>
        obtain ⟨q, ws⟩ := pair
        cases he : (scrapeQuery env { st with words := ws } q).1.err with
        | some e =>
          rw [go_true_err env maxA n st track q ws e hp he]
          exact gf_longSleep_cons st _ _ none _ (gf_query env st q ws hp none)
        | none =>
          rw [go_true_ok env maxA n st track q ws hp he]
          exact gf_longSleep_cons st _ _ none _
            (gf_query_seq env st q ws hp _ none
              (ih (scrapeQuery env { st with words := ws } q).1.state track
                (!(scrapeQuery env { st with words := ws } q).2)))
    | false =>
      by_cases hlt : st.datasetLength < maxA
      · by_cases ht : st.datasetLength - track > 25
        · cases hp : popWord st.words with
          | none =>
            rw [go_trk_exh env maxA n st track hlt ht hp]
            exact gf_longSleep_cons st [] st none (some CrawlError.exhausted) (gf_id st none)
          | some pair =>
            obtain ⟨q, ws⟩ := pair
            cases he : (scrapeQuery env { st with words := ws } q).1.err with
            | some e =>
              rw [go_trk_err env maxA n st track q ws e hlt ht hp he]
              exact gf_longSleep_cons st _ _ none _ (gf_query env st q ws hp none)
            | none =>
              rw [go_trk_ok env maxA n st track q ws hlt ht hp he]
              exact gf_longSleep_cons st _ _ none _
                (gf_query_seq env st q ws hp _ none
                  (ih (scrapeQuery env { st with words := ws } q).1.state
                    st.datasetLength
                    (!(scrapeQuery env { st with words := ws } q).2)))
        · cases hp : popWord st.words with
          | none =>
            rw [go_plain_exh env maxA n st track hlt ht hp]
            exact gf_id st _
          | some pair =>
            obtain ⟨q, ws⟩ := pair
            cases he : (scrapeQuery env { st with words := ws } q).1.err with
            | some e =>
              rw [go_plain_err env maxA n st track q ws e hlt ht hp he]
              exact gf_query env st q ws hp _
            | none =>
              rw [go_plain_ok env maxA n st track q ws hlt ht hp he]
              exact gf_query_seq env st q ws hp _ _
                (ih (scrapeQuery env { st with words := ws } q).1.state track
                  (!(scrapeQuery env { st with words := ws } q).2))
      · rw [go_done env maxA n st track hlt]
        exact gf_id st _

/-! ## Concrete environments and states used as witnesses -/

/-- Every query yields one fresh URL and every fetch succeeds. -/
def envOne : Env :=
  { articleUrls := fun q => [q ++ "u"]
    fetch := fun u => Fetched.page ("T" ++ u) "s" ("x" ++ u) }

/-- Every query yields five fixed URLs, all valid. -/
def envFive : Env :=
  { articleUrls := fun _ => ["u1", "u2", "u3", "u4", "u5"]
    fetch := fun u => Fetched.page "T" "s" ("x" ++ u) }

/-- Every article fetch returns an HTTP error status. -/
def envErr : Env :=
  { articleUrls := fun q => ["u" ++ q]
    fetch := fun _ => Fetched.httpError }

/-- Valid pages whose title extraction yields the empty string. -/
def envNoTitle : Env :=
  { articleUrls := fun _ => ["u1"]
    fetch := fun _ => Fetched.page "" "s" "x" }

/-- Forty-five distinct query words. -/
def words45 : List String := (List.range 45).map (fun i => "w" ++ toString i)

def st45 : ScraperState := initState none words45

def stABCDE : ScraperState := initState none ["a", "b", "c", "d", "e"]

def stOneWord : ScraperState := initState none ["a"]

def stOneWordB : ScraperState := initState none ["b"]

def stW1 : ScraperState := initState none ["w"]

def stErr : ScraperState := initState none ["a", "b", "c"]

def recTwo : List Sample :=
  [⟨"u1", "t1", "s1", "x1"⟩, ⟨"u2", "t2", "s2", "x2"⟩]

def stTwo : ScraperState := initState (some recTwo) ["a"]

/-! ## C2: no URL is ever persisted twice -/

theorem CrawlInv_initState_none (words : List String) :
    CrawlInv (initState none words) := by
  refine ⟨List.nodup_nil, ?_, rfl⟩
  intro s hs
  exact absurd hs (List.not_mem_nil _)

theorem CrawlInv_initState_some (records : List Sample)
    (words : List String) (h : (records.map Sample.url).Nodup) :
    CrawlInv (initState (some records) words) := by
  have hf := getDatasetInfo_fold records (0, [])
  refine ⟨h, ?_, ?_⟩
  · intro s hs
    show s.url ∈ (getDatasetInfo (some records)).2
    rw [getDatasetInfo]
    rw [hf.2 s.url]
    exact Or.inr (List.mem_map_of_mem Sample.url hs)
  · show (getDatasetInfo (some records)).1 = records.length
    rw [getDatasetInfo, hf.1]
    omega

instance (st : ScraperState) : Decidable (CrawlInv st) := by
  unfold CrawlInv
  infer_instance

/-- Claim C2: starting from any state satisfying the §3 invariant
(which initial recovery establishes, as the last two conjuncts show),
a crawl run preserves it — so the store never receives the same URL
twice and the count always equals the number of stored records; a URL
in the seen set at the start of the run is never fetched (no network
request for it); and every appended URL is in the seen set afterwards. -/
theorem no_duplicate_persisted_urls (env : Env) (maxA fuel : Nat)
    (st : ScraperState) (hi : CrawlInv st) :
    CrawlInv (scrape env maxA fuel st).state ∧
    (∀ u ∈ st.seenUrls,
      Event.articleFetch u ∉ (scrape env maxA fuel st).events) ∧
    (∀ u, Event.append u ∈ (scrape env maxA fuel st).events →
      u ∈ (scrape env maxA fuel st).state.seenUrls) ∧
    (∀ (url : String) (rest : List String) (st2 : ScraperState),
      url ∈ st2.seenUrls →
      scrapeUrlList env st2 (url :: rest) = scrapeUrlList env st2 rest) ∧
    (∀ words, CrawlInv (initState none words)) ∧
    (∀ records words, (records.map Sample.url).Nodup →
      CrawlInv (initState (some records) words)) := by
  have hg := go_facts env maxA fuel st st.datasetLength false
  obtain ⟨_, h2, _, h4, h5⟩ := hg
  exact ⟨h2 hi, h4, h5,
    fun url rest st2 hu => sul_cons_seen env st2 url rest hu,
    CrawlInv_initState_none, CrawlInv_initState_some⟩

theorem no_duplicate_persisted_urls_witness :
    CrawlInv (scrape envOne 3 10 stABCDE).state :=
  (no_duplicate_persisted_urls envOne 3 10 stABCDE (by decide)).1

/-! ## C4: normal termination -/

/-- Claim C4: once `dataset_length ≥ max_articles` the crawl loop stops
at its outer test with no further events — in particular no further
query is popped; and with `max_articles = 3` against a fetcher giving
exactly one fresh valid sample per query, the run makes exactly 3
appends, pops exactly 3 queries, and finishes cleanly with count 3. -/
theorem normal_termination (env : Env) (maxA fuel : Nat)
    (st : ScraperState) (h : maxA ≤ st.datasetLength) :
    scrape env maxA (fuel + 1) st = ⟨[], st, none⟩ ∧
    (scrape envOne 3 10 stABCDE).events.countP isAppend = 3 ∧
    (scrape envOne 3 10 stABCDE).events.countP isPopQuery = 3 ∧
    (scrape envOne 3 10 stABCDE).err = none ∧
    (scrape envOne 3 10 stABCDE).state.datasetLength = 3 := by
  refine ⟨?_, by decide, by decide, by decide, by decide⟩
  rw [scrape]
  exact go_done env maxA fuel st st.datasetLength (Nat.not_lt.2 h)

theorem normal_termination_witness :
    scrape envOne 2 7 stTwo = ⟨[], stTwo, none⟩ :=
  (normal_termination envOne 2 6 stTwo (by decide)).1

/-! ## C7: query source behaviour -/

/-- Claim C7: popping a query removes exactly the last element of the
pool (pool shrinks by one); popping from an empty pool fails
(`IndexError`, the Exhausted condition); if the initial pool has no
repeats then no query is ever popped twice in a run; and exhaustion
with the target count not yet reached aborts the run with the
Exhausted error. -/
theorem query_source_lifo :
    (∀ (l : List String) (q : String), popWord (l ++ [q]) = some (q, l)) ∧
    popWord [] = none ∧
    (∀ (env : Env) (maxA fuel : Nat) (st : ScraperState), st.words.Nodup →
      (poppedQueries (scrape env maxA fuel st).events).Nodup) ∧
    (∀ (env : Env) (maxA fuel : Nat) (st : ScraperState) (track : Nat)
      (b : Bool), st.words = [] → st.datasetLength < maxA →
      (scrapeGo env maxA (fuel + 1) st track b).err
        = some CrawlError.exhausted) := by
  refine ⟨?_, rfl, ?_, ?_⟩
  · intro l q
    unfold popWord
    rw [List.getLast?_concat, List.dropLast_concat]
  · intro env maxA fuel st hnd
    have h3 := (go_facts env maxA fuel st st.datasetLength false).2.2.1
    rw [scrape]
    have h4 : ((scrapeGo env maxA fuel st st.datasetLength false).state.words
        ++ (poppedQueries
          (scrapeGo env maxA fuel st st.datasetLength false).events).reverse).Nodup := by
      rw [← h3]; exact hnd
    have h5 := h4.of_append_right
    exact List.nodup_reverse.1 h5
  · intro env maxA fuel st track b hw hlt
    have hp : popWord st.words = none := by rw [hw]; rfl
    cases b with
    | true => rw [go_true_exh env maxA fuel st track hp]
    | false =>
      by_cases ht : st.datasetLength - track > 25
      · rw [go_trk_exh env maxA fuel st track hlt ht hp]
      · rw [go_plain_exh env maxA fuel st track hlt ht hp]

theorem query_source_lifo_witness :
    (poppedQueries (scrape envOne 3 10 stABCDE).events).Nodup :=
  query_source_lifo.2.2.1 envOne 3 10 stABCDE (by decide)

/-! ## C9: the termination check runs only between query batches -/

theorem sq_false_state (env : Env) (st : ScraperState) (q : String)
    (h : (scrapeQuery env st q).2 = false) :
    (scrapeQuery env st q).1.state = st := by
  refine sq_cases env st q ?_ ?_
  · intro he
    rw [sq_empty env st q he]
  · intro he
    rw [sq_nonempty env st q he] at h
    exact Bool.noConfusion h

theorem go_count_bound (env : Env) (maxA B : Nat)
    (hB : ∀ q, (env.articleUrls q).length ≤ B) :
    ∀ (fuel : Nat) (st : ScraperState) (track : Nat) (b : Bool),
      (b = true → st.datasetLength < maxA) →
      st.datasetLength ≤ maxA - 1 + B →
      (scrapeGo env maxA fuel st track b).state.datasetLength
        ≤ maxA - 1 + B := by
  intro fuel
  induction fuel with
  | zero =>
    intro st track b _ h2
    rw [go_zero]
    exact h2
  | succ n ih =>
    intro st track b h1 h2
    have step : ∀ (q : String) (ws : List String),
        popWord st.words = some (q, ws) →
        st.datasetLength < maxA →
        ∀ track2 : Nat,
        (match (scrapeQuery env { st with words := ws } q).1.err with
          | some _ => (scrapeQuery env { st with words := ws } q).1.state
          | none => (scrapeGo env maxA n
              (scrapeQuery env { st with words := ws } q).1.state track2
              (!(scrapeQuery env { st with words := ws } q).2)).state).datasetLength
          ≤ maxA - 1 + B := by
      intro q ws _ hlt track2
      have hq := sq_count_le env { st with words := ws } q
      have hstc : ({ st with words := ws } : ScraperState).datasetLength
          = st.datasetLength := rfl
      rw [hstc] at hq
      have hBq := hB q
      have hple : (scrapeQuery env { st with words := ws } q).1.state.datasetLength
          ≤ maxA - 1 + B := by omega
      cases he : (scrapeQuery env { st with words := ws } q).1.err with
      | some e => exact hple
      | none =>
        cases hb : (scrapeQuery env { st with words := ws } q).2 with
        | false =>
          refine ih (scrapeQuery env { st with words := ws } q).1.state track2
            true ?_ hple
          intro _
          rw [sq_false_state env { st with words := ws } q hb]
          exact hlt
        | true =>
          refine ih (scrapeQuery env { st with words := ws } q).1.state track2
            false ?_ hple
          intro hc
          exact Bool.noConfusion hc
    cases b with
    | true =>
      have hlt := h1 rfl
      cases hp : popWord st.words with
      | none =>
        rw [go_true_exh env maxA n st track hp]
        exact h2
      | some pair =>
        obtain ⟨q, ws⟩ := pair
        have hs := step q ws hp hlt track
        cases he : (scrapeQuery env { st with words := ws } q).1.err with
        | some e =>
          rw [go_true_err env maxA n st track q ws e hp he]
          rw [he] at hs
          exact hs
        | none =>
          rw [go_true_ok env maxA n st track q ws hp he]
          rw [he] at hs
          exact hs
    | false =>
      by_cases hlt : st.datasetLength < maxA
      · by_cases ht : st.datasetLength - track > 25
        · cases hp : popWord st.words with
          | none =>
            rw [go_trk_exh env maxA n st track hlt ht hp]
            exact h2
          | some pair =>
            obtain ⟨q, ws⟩ := pair
            have hs := step q ws hp hlt st.datasetLength
            cases he : (scrapeQuery env { st with words := ws } q).1.err with
            | some e =>
              rw [go_trk_err env maxA n st track q ws e hlt ht hp he]
              rw [he] at hs
              exact hs
            | none =>
              rw [go_trk_ok env maxA n st track q ws hlt ht hp he]
              rw [he] at hs
              exact hs
        · cases hp : popWord st.words with
          | none =>
            rw [go_plain_exh env maxA n st track hlt ht hp]
            exact h2
          | some pair =>
            obtain ⟨q, ws⟩ := pair
            have hs := step q ws hp hlt track
            cases he : (scrapeQuery env { st with words := ws } q).1.err with
            | some e =>
              rw [go_plain_err env maxA n st track q ws e hlt ht hp he]
              rw [he] at hs
              exact hs
            | none =>
              rw [go_plain_ok env maxA n st track q ws hlt ht hp he]
              rw [he] at hs
              exact hs
      · rw [go_done env maxA n st track hlt]
        exact h2

/-- Claim C9: the `count < max_articles` test runs only between query
batches.  Within a batch every new valid URL is fetched and appended
regardless of the count — on `max_articles = 2` with a 5-URL batch the
run persists all 5.  Consequently the final count can exceed
`max_articles`, but never by more than the size of the last batch:
with every batch of length at most `B`, the final count stays at most
`max_articles - 1 + B`. -/
theorem overshoot_bounded (env : Env) (maxA fuel B : Nat)
    (st : ScraperState) (hB : ∀ q, (env.articleUrls q).length ≤ B)
    (h0 : st.datasetLength < maxA) :
    (scrape env maxA fuel st).state.datasetLength ≤ maxA - 1 + B ∧
    (∀ (urls : List String) (st2 : ScraperState),
      (scrapeUrlList env st2 urls).err = none →
      ∀ u ∈ urls, validFetch env u = true →
      u ∈ (scrapeUrlList env st2 urls).state.seenUrls) ∧
    (scrape envFive 2 5 stOneWord).state.datasetLength = 5 ∧
    (scrape envFive 2 5 stOneWord).err = none := by
  refine ⟨?_, sul_valid_in_seen env, by decide, by decide⟩
  rw [scrape]
  refine go_count_bound env maxA B hB fuel st st.datasetLength false ?_ ?_
  · intro hc
    exact Bool.noConfusion hc
  · omega

theorem overshoot_bounded_witness :
    (scrape envFive 2 5 stOneWord).state.datasetLength ≤ 2 - 1 + 5 :=
  (overshoot_bounded envFive 2 5 5 stOneWord (fun _ => Nat.le.refl)
    (by decide)).1

/-! ## C10: the title is never validated at crawl time -/

theorem mem_ignoreDuplicatesGo_title :
    ∀ (samples : List Sample) (seen : List String) (s : Sample),
    s ∈ ignoreDuplicatesGo seen samples → pyStrip s.title ≠ "" := by
  intro samples
  induction samples with
  | nil => intro seen s hc; exact absurd hc (List.not_mem_nil _)
  | cons x rest ih =>
    intro seen s hc
    simp only [ignoreDuplicatesGo] at hc
    by_cases hk : pyStrip x.title ≠ "" ∧ pyStrip x.title ∉ seen
    · rw [if_pos hk] at hc
      rcases List.mem_cons.1 hc with rfl | hc2
      · exact hk.1
      · exact ih _ s hc2
    · rw [if_neg hk] at hc
      exact ih _ s hc

/-- Claim C10: crawl-time validation inspects only `text` and
`summary`: a page whose title extraction yields any string — the empty
string included — still produces a sample that is persisted verbatim,
while a missing text or summary discards the page; empty-titled
records are only removed later, at export time. -/
theorem title_not_validated (url title summary text : String)
    (hv : ¬(text = "" ∨ summary = "")) :
    getArticleData url (Fetched.page title summary text)
      = Except.ok (some ⟨url, title, summary, text⟩) ∧
    (∀ (u ti s x : String), (x = "" ∨ s = "") →
      getArticleData u (Fetched.page ti s x) = Except.ok none) ∧
    (scrape envNoTitle 1 5 stOneWordB).state.dataset
      = [⟨"u1", "", "s", "x"⟩] ∧
    (scrape envNoTitle 1 5 stOneWordB).err = none ∧
    (∀ (samples : List Sample) (s : Sample),
      s ∈ ignoreDuplicates samples → pyStrip s.title ≠ "") := by
  refine ⟨?_, ?_, by decide, by decide, ?_⟩
  · rw [getArticleData, if_neg hv]
  · intro u ti s x hx
    rw [getArticleData, if_pos hx]
  · intro samples s hs
    exact mem_ignoreDuplicatesGo_title samples [] s hs

theorem title_not_validated_witness :
    getArticleData "u" (Fetched.page "" "s" "x")
      = Except.ok (some ⟨"u", "", "s", "x"⟩) :=
  (title_not_validated "u" "" "s" "x" (by decide)).1

/-! ## C5: the batch cooldown fires after 26 appends, not 25 -/

/-- Claim C5 counterexample: with one fresh valid sample per query (no
empty-query events, no prior long delay), the trace prefix that
already contains 26 append events — hence the 26th fetch attempt and
even the 26th successful append — contains no long delay at all.  The
code tests `dataset_length - track > 25`, which is still false after
25 appends. -/
theorem batch_cooldown_cex :
    ((scrape envOne 30 60 st45).events.take 156).countP isAppend = 26 ∧
    ((scrape envOne 30 60 st45).events.take 156).countP isLongSleep = 0 ∧
    (scrape envOne 30 60 st45).err = none := by
  exact ⟨by decide, by decide, by decide⟩

/-- Claim C5 amended: a long delay is forced exactly when the appends
since the last long delay exceed 25 — that is, after 26 (not 25)
successful appends, the single long delay happens before the 27th
query is even popped.  The first two conjuncts show the trigger
condition exactly; the rest exhibit the 30-append run in which the
sole long delay sits right after the 26th append. -/
theorem batch_cooldown_amended (env : Env) (maxA fuel : Nat)
    (st : ScraperState) (track : Nat)
    (hlt : st.datasetLength < maxA) :
    (¬st.datasetLength - track > 25 →
      (scrapeGo env maxA (fuel + 1) st track false).events.head?
        ≠ some Event.longSleep) ∧
    (st.datasetLength - track > 25 →
      (scrapeGo env maxA (fuel + 1) st track false).events.head?
        = some Event.longSleep) ∧
    (scrape envOne 30 60 st45).events.countP isLongSleep = 1 ∧
    ((scrape envOne 30 60 st45).events.take 156).countP isAppend = 26 ∧
    (scrape envOne 30 60 st45).events.get? 156 = some Event.longSleep ∧
    (scrape envOne 30 60 st45).state.datasetLength = 30 := by
  refine ⟨?_, ?_, by decide, by decide, by decide, by decide⟩
  · intro ht
    cases hp : popWord st.words with
    | none =>
      rw [go_plain_exh env maxA fuel st track hlt ht hp]
      intro hc
      exact Option.noConfusion hc
    | some pair =>
      obtain ⟨q, ws⟩ := pair
      cases he : (scrapeQuery env { st with words := ws } q).1.err with
      | some e =>
        rw [go_plain_err env maxA fuel st track q ws e hlt ht hp he]
        intro hc
        exact Event.noConfusion (Option.some.inj hc)
      | none =>
        rw [go_plain_ok env maxA fuel st track q ws hlt ht hp he]
        intro hc
        exact Event.noConfusion (Option.some.inj hc)
  · intro ht
    cases hp : popWord st.words with
    | none =>
      rw [go_trk_exh env maxA fuel st track hlt ht hp]
      rfl
    | some pair =>
      obtain ⟨q, ws⟩ := pair
      cases he : (scrapeQuery env { st with words := ws } q).1.err with
      | some e =>
        rw [go_trk_err env maxA fuel st track q ws e hlt ht hp he]
        rfl
      | none =>
        rw [go_trk_ok env maxA fuel st track q ws hlt ht hp he]
        rfl

theorem batch_cooldown_amended_witness :
    (scrapeGo envOne 30 6 st45 0 false).events.head?
      ≠ some Event.longSleep :=
  (batch_cooldown_amended envOne 30 5 st45 0 (by decide)).1 (by decide)

/-! ## C6: an HTTP error kills the whole run, it is not a backoff -/

/-- Claim C6 counterexample: an HTTP error status during the very first
article fetch ends the run with the error — the crawler does NOT
treat it like an empty query: no long delay is issued and no further
query is popped, although two queries remain in the pool and the
target count (5) is far from reached. -/
theorem transport_failure_cex :
    (scrape envErr 5 10 stErr).err = some CrawlError.httpError ∧
    (scrape envErr 5 10 stErr).events.countP isLongSleep = 0 ∧
    (scrape envErr 5 10 stErr).events.countP isPopQuery = 1 ∧
    (scrape envErr 5 10 stErr).state.words = ["a", "b"] ∧
    (scrape envErr 5 10 stErr).state.datasetLength = 0 := by
  exact ⟨by decide, by decide, by decide, by decide, by decide⟩

/-- Claim C6 amended: an HTTP error status is indeed not silently
swallowed, but instead of backing off and advancing to the next query
it terminates the whole crawl: the URL loop stops at the failing URL
with the store unchanged from that point (first conjunct), the loop
iteration returns the error with no recursion (second conjunct), and
a full run ends with the HTTP error, zero long delays and a single
popped query (remaining conjuncts). -/
theorem transport_failure_amended (env : Env) (st : ScraperState)
    (url : String) (rest : List String) (h1 : url ∉ st.seenUrls)
    (h2 : env.fetch url = Fetched.httpError) :
    scrapeUrlList env st (url :: rest)
      = ⟨[Event.shortSleep, Event.articleFetch url], st,
          some CrawlError.httpError⟩ ∧
    (∀ (env2 : Env) (maxA fuel : Nat) (st2 : ScraperState) (track : Nat)
      (q : String) (ws : List String) (e : CrawlError),
      popWord st2.words = some (q, ws) →
      st2.datasetLength < maxA →
      ¬st2.datasetLength - track > 25 →
      (scrapeQuery env2 { st2 with words := ws } q).1.err = some e →
      scrapeGo env2 maxA (fuel + 1) st2 track false
        = ⟨Event.popQuery q ::
              (scrapeQuery env2 { st2 with words := ws } q).1.events,
            (scrapeQuery env2 { st2 with words := ws } q).1.state, some e⟩) ∧
    (scrape envErr 7 9 stErr).err = some CrawlError.httpError ∧
    (scrape envErr 7 9 stErr).events.countP isLongSleep = 0 ∧
    (scrape envErr 7 9 stErr).events.countP isPopQuery = 1 := by
  refine ⟨?_, ?_, by decide, by decide, by decide⟩
  · exact sul_cons_err env st url rest h1 h2
  · intro env2 maxA fuel st2 track q ws e hp hlt ht he
    exact go_plain_err env2 maxA fuel st2 track q ws e hlt ht hp he

theorem transport_failure_amended_witness :
    scrapeUrlList envErr (initState none []) ["ua"]
      = ⟨[Event.shortSleep, Event.articleFetch "ua"], initState none [],
          some CrawlError.httpError⟩ :=
  (transport_failure_amended envErr (initState none []) "ua" []
    (by decide) (by decide)).1

/-! ## C8: placement of the short delays -/

/-- Grammar of atomic event blocks a run trace is concatenated from:
a query pop, a long delay, a search-page fetch immediately followed by
its short delay (`driver.get` then `_short_sleep`), a short delay
immediately followed by the article fetch it precedes (`_short_sleep`
then `session.get`), or an append. -/
inductive Blocks : List Event → Prop where
  | nil : Blocks []
  | pop (q : String) (l : List Event) : Blocks l →
      Blocks (Event.popQuery q :: l)
  | long (l : List Event) : Blocks l → Blocks (Event.longSleep :: l)
  | search (q : String) (l : List Event) : Blocks l →
      Blocks (Event.searchFetch q :: Event.shortSleep :: l)
  | article (u : String) (l : List Event) : Blocks l →
      Blocks (Event.shortSleep :: Event.articleFetch u :: l)
  | app (u : String) (l : List Event) : Blocks l →
      Blocks (Event.append u :: l)

theorem blocks_append {l1 l2 : List Event}
    (h1 : Blocks l1) (h2 : Blocks l2) : Blocks (l1 ++ l2) := by
  induction h1 with
  | nil => exact h2
  | pop q l hB ih => exact Blocks.pop q _ ih
  | long l hB ih => exact Blocks.long _ ih
  | search q l hB ih => exact Blocks.search q _ ih
  | article u l hB ih => exact Blocks.article u _ ih
  | app u l hB ih => exact Blocks.app u _ ih

theorem blocks_head_not_af {evs : List Event} (h : Blocks evs)
    (u : String) : evs.get? 0 ≠ some (Event.articleFetch u) := by
  cases h with
  | nil => intro hc; exact Option.noConfusion hc
  | pop q l hB => intro hc; exact Event.noConfusion (Option.some.inj hc)
  | long l hB => intro hc; exact Event.noConfusion (Option.some.inj hc)
  | search q l hB => intro hc; exact Event.noConfusion (Option.some.inj hc)
  | article v l hB => intro hc; exact Event.noConfusion (Option.some.inj hc)
  | app v l hB => intro hc; exact Event.noConfusion (Option.some.inj hc)

theorem blocks_af_preceded {evs : List Event} (h : Blocks evs) :
    ∀ (i : Nat) (u : String),
    evs.get? (i + 1) = some (Event.articleFetch u) →
    evs.get? i = some Event.shortSleep := by
  induction h with
  | nil =>
    intro i u hc
    exact Option.noConfusion hc
  | pop q l hB ih =>
    intro i u hc
    cases i with
    | zero => exact absurd hc (blocks_head_not_af hB u)
    | succ j => exact ih j u hc
  | long l hB ih =>
    intro i u hc
    cases i with
    | zero => exact absurd hc (blocks_head_not_af hB u)
    | succ j => exact ih j u hc
  | app v l hB ih =>
    intro i u hc
    cases i with
    | zero => exact absurd hc (blocks_head_not_af hB u)
    | succ j => exact ih j u hc
  | search q l hB ih =>
    intro i u hc
    cases i with
    | zero => exact Event.noConfusion (Option.some.inj hc)
    | succ j =>
      cases j with
      | zero => rfl
      | succ k => exact ih k u hc
  | article v l hB ih =>
    intro i u hc
    cases i with
    | zero => rfl
    | succ j =>
      cases j with
      | zero => exact absurd hc (blocks_head_not_af hB u)
      | succ k => exact ih k u hc

theorem blocks_sf_followed {evs : List Event} (h : Blocks evs) :
    ∀ (i : Nat) (q : String),
    evs.get? i = some (Event.searchFetch q) →
    evs.get? (i + 1) = some Event.shortSleep := by
  induction h with
  | nil =>
    intro i q hc
    exact Option.noConfusion hc
  | pop p l hB ih =>
    intro i q hc
    cases i with
    | zero => exact Event.noConfusion (Option.some.inj hc)
    | succ j => exact ih j q hc
  | long l hB ih =>
    intro i q hc
    cases i with
    | zero => exact Event.noConfusion (Option.some.inj hc)
    | succ j => exact ih j q hc
  | app v l hB ih =>
    intro i q hc
    cases i with
    | zero => exact Event.noConfusion (Option.some.inj hc)
    | succ j => exact ih j q hc
  | search p l hB ih =>
    intro i q hc
    cases i with
    | zero => rfl
    | succ j =>
      cases j with
      | zero => exact Event.noConfusion (Option.some.inj hc)
      | succ k => exact ih k q hc
  | article v l hB ih =>
    intro i q hc
    cases i with
    | zero => exact Event.noConfusion (Option.some.inj hc)
    | succ j =>
      cases j with
      | zero => exact Event.noConfusion (Option.some.inj hc)
      | succ k => exact ih k q hc

theorem sul_blocks (env : Env) : ∀ (urls : List String)
    (st : ScraperState), Blocks (scrapeUrlList env st urls).events := by
  intro urls
  induction urls with
  | nil => intro st; exact Blocks.nil
  | cons url rest ih =>
    intro st
    refine sul_cases env st url ?_ ?_ ?_ ?_
    · intro h
      rw [sul_cons_seen env st url rest h]
      exact ih st
    · intro h hf
      rw [sul_cons_err env st url rest h hf]
      exact Blocks.article url [] Blocks.nil
    · intro t s x h hf hv
      rw [sul_cons_invalid env st url rest t s x h hf hv]
      exact Blocks.article url _ (ih st)
    · intro t s x h hf hv
      rw [sul_cons_valid env st url rest t s x h hf hv]
      exact Blocks.article url _
        (Blocks.app url _ (ih (saveSample st ⟨url, t, s, x⟩)))

theorem sq_blocks (env : Env) (st : ScraperState) (q : String) :
    Blocks (scrapeQuery env st q).1.events := by
  refine sq_cases env st q ?_ ?_
  · intro h
    rw [sq_empty env st q h]
    exact Blocks.search q [] Blocks.nil
  · intro h
    rw [sq_nonempty env st q h]
    exact Blocks.search q _ (sul_blocks env (env.articleUrls q) st)

theorem go_blocks (env : Env) (maxA : Nat) :
    ∀ (fuel : Nat) (st : ScraperState) (track : Nat) (b : Bool),
    Blocks (scrapeGo env maxA fuel st track b).events := by
  intro fuel
  induction fuel with
  | zero =>
    intro st track b
    rw [go_zero]
    exact Blocks.nil
  | succ n ih =>
    intro st track b
    cases b with
    | true =>
      cases hp : popWord st.words with
      | none =>
        rw [go_true_exh env maxA n st track hp]
        exact Blocks.long [] Blocks.nil
      | some pair =>
        obtain ⟨q, ws⟩ := pair
        cases he : (scrapeQuery env { st with words := ws } q).1.err with
        | some e =>
          rw [go_true_err env maxA n st track q ws e hp he]
          exact Blocks.long _ (Blocks.pop q _
            (sq_blocks env { st with words := ws } q))
        | none =>
          rw [go_true_ok env maxA n st track q ws hp he]
          exact Blocks.long _ (Blocks.pop q _
            (blocks_append (sq_blocks env { st with words := ws } q)
              (ih (scrapeQuery env { st with words := ws } q).1.state track
                (!(scrapeQuery env { st with words := ws } q).2))))
    | false =>
      by_cases hlt : st.datasetLength < maxA
      · by_cases ht : st.datasetLength - track > 25
        · cases hp : popWord st.words with
          | none =>
            rw [go_trk_exh env maxA n st track hlt ht hp]
            exact Blocks.long [] Blocks.nil
          | some pair =>
            obtain ⟨q, ws⟩ := pair
            cases he : (scrapeQuery env { st with words := ws } q).1.err with
            | some e =>
              rw [go_trk_err env maxA n st track q ws e hlt ht hp he]
              exact Blocks.long _ (Blocks.pop q _
                (sq_blocks env { st with words := ws } q))
            | none =>
              rw [go_trk_ok env maxA n st track q ws hlt ht hp he]
              exact Blocks.long _ (Blocks.pop q _
                (blocks_append (sq_blocks env { st with words := ws } q)
                  (ih (scrapeQuery env { st with words := ws } q).1.state
                    st.datasetLength
                    (!(scrapeQuery env { st with words := ws } q).2))))
        · cases hp : popWord st.words with
          | none =>
            rw [go_plain_exh env maxA n st track hlt ht hp]
            exact Blocks.nil
          | some pair =>
            obtain ⟨q, ws⟩ := pair
            cases he : (scrapeQuery env { st with words := ws } q).1.err with
            | some e =>
              rw [go_plain_err env maxA n st track q ws e hlt ht hp he]
              exact Blocks.pop q _ (sq_blocks env { st with words := ws } q)
            | none =>
              rw [go_plain_ok env maxA n st track q ws hlt ht hp he]
              exact Blocks.pop q _
                (blocks_append (sq_blocks env { st with words := ws } q)
                  (ih (scrapeQuery env { st with words := ws } q).1.state track
                    (!(scrapeQuery env { st with words := ws } q).2)))
      · rw [go_done env maxA n st track hlt]
        exact Blocks.nil

/-- Claim C8 counterexample: the first search-page fetch of a run is
preceded by no short delay at all — the only events before it are the
query pop; the delay comes right after the page load
(`driver.get(url)` and only then `self._short_sleep()`). -/
theorem short_delay_cex :
    (scrape envOne 1 5 stW1).events.take 3
      = [Event.popQuery "w", Event.searchFetch "w", Event.shortSleep] ∧
    ((scrape envOne 1 5 stW1).events.take 2).countP isShortSleep = 0 := by
  exact ⟨by decide, by decide⟩

/-- Claim C8 amended: a short delay still directly precedes every
article-page fetch (which in particular is never the first event),
but for search-page fetches the short delay comes immediately after
the fetch, not before it; the delay range in debug mode is much
shorter than the normal range. -/
theorem short_delay_amended (env : Env) (maxA fuel : Nat)
    (st : ScraperState) :
    (∀ (i : Nat) (u : String),
      (scrape env maxA fuel st).events.get? (i + 1)
        = some (Event.articleFetch u) →
      (scrape env maxA fuel st).events.get? i = some Event.shortSleep) ∧
    (∀ u : String, (scrape env maxA fuel st).events.get? 0
      ≠ some (Event.articleFetch u)) ∧
    (∀ (i : Nat) (q : String),
      (scrape env maxA fuel st).events.get? i
        = some (Event.searchFetch q) →
      (scrape env maxA fuel st).events.get? (i + 1)
        = some Event.shortSleep) ∧
    (shortSleepRangeCs true).2 < (shortSleepRangeCs false).1 := by
  have hb := go_blocks env maxA fuel st st.datasetLength false
  exact ⟨blocks_af_preceded hb, blocks_head_not_af hb,
    blocks_sf_followed hb, by decide⟩

theorem short_delay_amended_witness :
    (scrape envOne 1 5 stW1).events.get? 3 = some Event.shortSleep :=
  (short_delay_amended envOne 1 5 stW1).1 3 "wu" (by decide)
